import Mathlib

/-!
Shallow embedding of the Raft consensus module (single Go source file) and
verification of the frozen claims about it.

The Go code keeps all per-peer state in a struct named Raft protected by a
mutex; RPC handlers and helper methods mutate that struct and send on buffered
channels.  Here the struct becomes an immutable record, each handler becomes a
pure function from the pre-state (plus arguments) to a result record holding
the post-state, the RPC reply, the list of ApplyMsg records sent on commitCh,
and a flag recording whether the election timer was reset.  Go int becomes
Int (sentinel values such as -1 are in range), Go slices become Lists, and the
opaque command type interface{} becomes a type parameter.
-/

namespace RaftModel

/-- Role constant: follower (the Go source uses plain int status codes). -/
def STATUS_FOLLOWER : Int := 0

/-- Role constant: candidate. -/
def STATUS_CANDIDATE : Int := 1

/-- Role constant: leader. -/
def STATUS_LEADER : Int := 2

/-- One log entry; the Go struct is named Log: command, term when received by
the leader, and position in the log. -/
structure Log (α : Type) where
  command : α
  term : Int
  position : Int
deriving DecidableEq, Repr

/-- Message sent on the apply channel for each committed entry.  The reserved
UseSnapshot and Snapshot fields are always false and empty in this variant and
are omitted. -/
structure ApplyMsg (α : Type) where
  index : Int
  command : α
deriving DecidableEq, Repr

/-- Replication request consumed by the per-follower update task: the target
log index and the leader term when the command was issued. -/
structure PeerUpdateCmd where
  entry : Int
  term : Int
deriving DecidableEq, Repr

/-- The per-peer consensus state (the mutable fields of the Go Raft struct).
The peers slice is abstracted to its length numPeers; timers and channels are
modelled in the operation results rather than as state. -/
structure Raft (α : Type) where
  me : Int
  numPeers : Nat
  currentTerm : Int
  votedFor : Int
  logEntries : List (Log α)
  commitIndex : Int
  lastApplied : Int
  status : Int
  nextIndex : List Int
  matchIndex : List Int
  updatingPeers : List Bool
deriving DecidableEq, Repr

/-- AppendEntries RPC arguments. -/
structure AppendEntriesArgs (α : Type) where
  term : Int
  leaderId : Int
  prevLogIndex : Int
  prevLogTerm : Int
  logEntries : List (Log α)
  leaderCommitIndex : Int
deriving DecidableEq, Repr

/-- AppendEntries RPC reply.  A fresh reply struct in Go starts at its zero
value: term 0, success false, peerIndex 0, nextIndex 0. -/
structure AppendEntriesReply where
  term : Int
  success : Bool
  peerIndex : Int
  nextIndex : Int
deriving DecidableEq, Repr

/-- RequestVote RPC arguments. -/
structure RequestVoteArgs where
  term : Int
  candidateId : Int
  lastLogIndex : Int
  lastLogTerm : Int
deriving DecidableEq, Repr

/-- RequestVote RPC reply. -/
structure RequestVoteReply where
  term : Int
  voteGranted : Bool
deriving DecidableEq, Repr

/-- Term stored at Go index i of the log; only read under the same bounds
guards as the source, so the default 0 is never observable. -/
def termAt {α : Type} (l : List (Log α)) (i : Int) : Int :=
  match l.get? i.toNat with
  | some e => e.term
  | none => 0

/-- Command stored at Go index i of the log; only read under the same bounds
guards as the source. -/
def commandAt {α : Type} [Inhabited α] (l : List (Log α)) (i : Int) : α :=
  match l.get? i.toNat with
  | some e => e.command
  | none => default

/-- becomeFollower from the source: unconditionally set status to follower,
clear votedFor and adopt the given term. -/
def becomeFollower {α : Type} (rf : Raft α) (newTerm : Int) : Raft α :=
  { rf with status := STATUS_FOLLOWER, votedFor := -1, currentTerm := newTerm }

/-- becomeFollowerIfTermIsOlder from the source: step down only when the
observed term is strictly newer than currentTerm. -/
def becomeFollowerIfTermIsOlder {α : Type} (rf : Raft α) (term : Int) : Raft α :=
  if rf.currentTerm < term then becomeFollower rf term else rf

/-- becomeFollowerIfTermIsOlderOrEqual from the source: step down when the
observed term is greater than or equal to currentTerm. -/
def becomeFollowerIfTermIsOlderOrEqual {α : Type} (rf : Raft α) (term : Int) : Raft α :=
  if rf.currentTerm ≤ term then becomeFollower rf term else rf

/-- getMajoritySize from the source: len(peers)/2 + 1. -/
def getMajoritySize {α : Type} (rf : Raft α) : Nat :=
  rf.numPeers / 2 + 1

/-- The commit loop at the end of the AppendEntries handler: starting at
oldCommitIndex = lo and running while the counter is at most hi, emit an
ApplyMsg with 1-based index for every non-negative counter value. -/
def commitMsgs {α : Type} [Inhabited α] (l : List (Log α)) (lo hi : Int) :
    List (ApplyMsg α) :=
  (List.range ((hi + 1) - lo).toNat).filterMap (fun (j : Nat) =>
    if 0 ≤ lo + (j : Int) then
      some { index := (lo + (j : Int)) + 1, command := commandAt l (lo + (j : Int)) }
    else none)

/-- Result of the AppendEntries handler: post-state, reply, ApplyMsg records
sent to commitCh in order, and whether the election timer was reset. -/
structure AEResult (α : Type) where
  state : Raft α
  reply : AppendEntriesReply
  emitted : List (ApplyMsg α)
  timerReset : Bool
deriving DecidableEq, Repr

/-- Truncation step of the accepted AppendEntries path: when PrevLogIndex is
greater than -1, cut the log to the prefix ending at PrevLogIndex, update
lastApplied and the reply NextIndex.  Returns the new state together with the
reply NextIndex value (0, the Go zero value, when untouched). -/
def truncateStep {α : Type} (rf : Raft α) (args : AppendEntriesArgs α) :
    Raft α × Int :=
  if -1 < args.prevLogIndex then
    let l := rf.logEntries.take (args.prevLogIndex + 1).toNat
    ({ rf with logEntries := l, lastApplied := (l.length : Int) - 1 },
      (l.length : Int) - 1)
  else (rf, 0)

/-- Append step of the accepted AppendEntries path: when the arguments carry
entries, append them after the (possibly truncated) log, update lastApplied
and the reply NextIndex. -/
def appendStep {α : Type} (rf : Raft α) (args : AppendEntriesArgs α) (ni : Int) :
    Raft α × Int :=
  if 0 < args.logEntries.length then
    let l := rf.logEntries ++ args.logEntries
    ({ rf with logEntries := l, lastApplied := (l.length : Int) - 1 },
      (l.length : Int) - 1)
  else (rf, ni)

/-- Commit step run after a successful AppendEntries: when LeaderCommitIndex
is beyond commitIndex, move commitIndex to min(LeaderCommitIndex, last log
index) and emit an ApplyMsg for every newly committed index. -/
def commitStep {α : Type} [Inhabited α] (rf : Raft α) (lcIdx : Int) :
    Raft α × List (ApplyMsg α) :=
  if rf.commitIndex < lcIdx then
    let newCI := min lcIdx ((rf.logEntries.length : Int) - 1)
    ({ rf with commitIndex := newCI },
      commitMsgs rf.logEntries (rf.commitIndex + 1) newCI)
  else (rf, [])

/-- The accepted branch of the AppendEntries handler (consistency check
passed): truncate, append, reply Success true, then run the commit step. -/
def acceptEntries {α : Type} [Inhabited α] (rf : Raft α)
    (args : AppendEntriesArgs α) : AEResult α :=
  let s1 := truncateStep rf args
  let s2 := appendStep s1.1 args s1.2
  let s3 := commitStep s2.1 args.leaderCommitIndex
  { state := s3.1,
    reply := { term := s2.1.currentTerm, success := true, peerIndex := 0,
               nextIndex := s2.2 },
    emitted := s3.2,
    timerReset := true }

/-- Body of the AppendEntries handler after the initial step-down call, on
the already stepped-down state: reject an old term without resetting the
election timer, otherwise reset the timer and run the two consistency tests,
falling through to the accept path. -/
def appendEntriesBody {α : Type} [Inhabited α] (rf : Raft α)
    (args : AppendEntriesArgs α) : AEResult α :=
  if args.term < rf.currentTerm then
    { state := rf,
      reply := { term := rf.currentTerm, success := false, peerIndex := 0,
                 nextIndex := 0 },
      emitted := [], timerReset := false }
  else if (rf.logEntries.length : Int) ≤ args.prevLogIndex then
    { state := rf,
      reply := { term := rf.currentTerm, success := false, peerIndex := 0,
                 nextIndex := 0 },
      emitted := [], timerReset := true }
  else if 0 < args.prevLogTerm ∧ -1 < args.prevLogIndex ∧
      args.prevLogTerm ≠ termAt rf.logEntries args.prevLogIndex then
    { state := rf,
      reply := { term := rf.currentTerm, success := false, peerIndex := 0,
                 nextIndex := 0 },
      emitted := [], timerReset := true }
  else
    acceptEntries rf args

/-- The AppendEntries RPC handler, translated clause by clause from the
source: first the becomeFollowerIfTermIsOlderOrEqual step-down, then the
handler body. -/
def AppendEntries {α : Type} [Inhabited α] (rf0 : Raft α)
    (args : AppendEntriesArgs α) : AEResult α :=
  appendEntriesBody (becomeFollowerIfTermIsOlderOrEqual rf0 args.term) args

/-- Last log term as computed by the RequestVote handler: 0 for an empty log,
otherwise the term of the last entry. -/
def selfLastLogTermOf {α : Type} (rf : Raft α) : Int :=
  match rf.logEntries.getLast? with
  | some e => e.term
  | none => 0

/-- The vote-granting test of the RequestVote handler, read off the nested
conditionals of the source. -/
def voteGrantedCheck {α : Type} (rf : Raft α) (args : RequestVoteArgs) : Bool :=
  if rf.votedFor = -1 then
    if selfLastLogTermOf rf < args.lastLogTerm then true
    else if selfLastLogTermOf rf = args.lastLogTerm then
      decide ((rf.logEntries.length : Int) ≤ args.lastLogIndex + 1)
    else false
  else false

/-- Result of the RequestVote handler. -/
structure RVResult (α : Type) where
  state : Raft α
  reply : RequestVoteReply
  timerReset : Bool
deriving DecidableEq, Repr

/-- Body of the RequestVote handler after the initial step-down call: grant
the vote exactly when the voteGrantedCheck passes, recording the candidate in
votedFor and resetting the election timer on a grant. -/
def requestVoteBody {α : Type} (rf : Raft α) (args : RequestVoteArgs) : RVResult α :=
  if voteGrantedCheck rf args then
    { state := { rf with votedFor := args.candidateId },
      reply := { term := rf.currentTerm, voteGranted := true },
      timerReset := true }
  else
    { state := rf,
      reply := { term := rf.currentTerm, voteGranted := false },
      timerReset := false }

/-- The RequestVote RPC handler: first the becomeFollowerIfTermIsOlder
step-down, then the handler body. -/
def RequestVote {α : Type} (rf0 : Raft α) (args : RequestVoteArgs) : RVResult α :=
  requestVoteBody (becomeFollowerIfTermIsOlder rf0 args.term) args

/-- enqueueEntryBroadcast from the source: when still leader, send the given
command on the update channel of every peer other than self.  The result is
the list of (peer, command) pairs enqueued, in peer order. -/
def enqueueEntryBroadcast {α : Type} (rf : Raft α) (cmd : PeerUpdateCmd) :
    List (Int × PeerUpdateCmd) :=
  if rf.status ≠ STATUS_LEADER then []
  else
    (List.range rf.numPeers).filterMap (fun (i : Nat) =>
      if (i : Int) = rf.me then none else some ((i : Int), cmd))

/-- Result of Start: post-state, enqueued replication commands, and the three
return values. -/
structure StartResult (α : Type) where
  state : Raft α
  updates : List (Int × PeerUpdateCmd)
  index : Int
  term : Int
  isLeader : Bool
deriving DecidableEq, Repr

/-- Start from the source: reject when not leader; otherwise append the new
entry, set nextIndex and matchIndex for self, bump lastApplied to the new last
index, enqueue a replication command for every other peer, and return the new
1-based length, the current term and true. -/
def Start {α : Type} (rf : Raft α) (command : α) : StartResult α :=
  if rf.status ≠ STATUS_LEADER then
    { state := rf, updates := [], index := -1, term := -1, isLeader := false }
  else
    let newLog : Log α :=
      { command := command, term := rf.currentTerm,
        position := (rf.logEntries.length : Int) }
    let rf1 := { rf with logEntries := rf.logEntries ++ [newLog] }
    let rf2 := { rf1 with
      nextIndex := rf1.nextIndex.set rf1.me.toNat ((rf1.logEntries.length : Int) - 1),
      matchIndex := rf1.matchIndex.set rf1.me.toNat ((rf1.logEntries.length : Int) - 1) }
    let rf3 := { rf2 with lastApplied := (rf2.logEntries.length : Int) - 1 }
    { state := rf3,
      updates := enqueueEntryBroadcast rf3
        { entry := rf3.lastApplied, term := rf3.currentTerm },
      index := (rf3.logEntries.length : Int),
      term := rf3.currentTerm,
      isLeader := true }

/-- BecomeCandidate from the source: set status to candidate, increment the
term and vote for self. -/
def BecomeCandidate {α : Type} (rf : Raft α) : Raft α :=
  { rf with
    status := STATUS_CANDIDATE,
    currentTerm := rf.currentTerm + 1,
    votedFor := rf.me }

/-- BecomeLeader from the source: set status to leader, clear votedFor,
reinitialize nextIndex to the last log index for every peer, matchIndex to the
last log index for self and -1 for the others, and clear updatingPeers.  The
election-timer stop and the immediate heartbeat broadcast are outside the
state. -/
def BecomeLeader {α : Type} (rf : Raft α) : Raft α :=
  { rf with
    status := STATUS_LEADER,
    votedFor := -1,
    nextIndex := List.replicate rf.numPeers ((rf.logEntries.length : Int) - 1),
    matchIndex := (List.range rf.numPeers).map (fun (i : Nat) =>
      if (i : Int) = rf.me then (rf.logEntries.length : Int) - 1 else -1),
    updatingPeers := List.replicate rf.numPeers false }

/-- Result of one iteration of the updatePeer loop: post-state, ApplyMsg
records sent to commitCh, and whether the loop returns (done) or retries. -/
structure UpdateStepResult (α : Type) where
  state : Raft α
  emitted : List (ApplyMsg α)
  done : Bool
deriving DecidableEq, Repr

/-- The two assignments run on a Success reply in updatePeer: set nextIndex
for the replying peer to the reply NextIndex, and matchIndex to that same
nextIndex value. -/
def setFollowerIndices {α : Type} (rf : Raft α) (p : Int) (ni : Int) : Raft α :=
  { rf with
    nextIndex := rf.nextIndex.set p.toNat ni,
    matchIndex := rf.matchIndex.set p.toNat ni }

/-- The updatingPeers[peer] = false assignment in updatePeer. -/
def markNotUpdating {α : Type} (rf : Raft α) (peer : Int) : Raft α :=
  { rf with updatingPeers := rf.updatingPeers.set peer.toNat false }

/-- The successCount computation of updatePeer: how many peers have
matchIndex at least the target entry. -/
def successCountFor {α : Type} (rf : Raft α) (e : Int) : Nat :=
  (List.range rf.numPeers).countP (fun q => decide (e ≤ rf.matchIndex.getD q 0))

/-- The quorum check and one-step commit of updatePeer, run once the reply
NextIndex has reached the target entry: emit the entry and advance
commitIndex exactly when successCount reaches the majority and commitIndex is
the index right below the entry. -/
def updatePeerQuorum {α : Type} [Inhabited α] (rf : Raft α)
    (cmd : PeerUpdateCmd) : UpdateStepResult α :=
  if getMajoritySize rf ≤ successCountFor rf cmd.entry then
    if rf.commitIndex = cmd.entry - 1 then
      { state := { rf with commitIndex := cmd.entry },
        emitted := [{ index := cmd.entry + 1,
                      command := commandAt rf.logEntries cmd.entry }],
        done := true }
    else { state := rf, emitted := [], done := true }
  else { state := rf, emitted := [], done := true }

/-- The Success branch of the updatePeer loop body: update the follower's
indices, and when the reply NextIndex reaches the target entry, clear the
updating flag and run the quorum check; otherwise loop. -/
def updatePeerSuccess {α : Type} [Inhabited α] (rf : Raft α) (peer : Int)
    (cmd : PeerUpdateCmd) (resp : AppendEntriesReply) : UpdateStepResult α :=
  if cmd.entry ≤ resp.nextIndex then
    updatePeerQuorum
      (markNotUpdating (setFollowerIndices rf resp.peerIndex resp.nextIndex) peer) cmd
  else
    { state := setFollowerIndices rf resp.peerIndex resp.nextIndex,
      emitted := [], done := false }

/-- Response handling of updatePeer after the step-down call: stop when no
longer leader; on Success run the Success branch; on failure decrement
nextIndex for the replying peer and retry. -/
def updatePeerBody {α : Type} [Inhabited α] (rf : Raft α) (peer : Int)
    (cmd : PeerUpdateCmd) (resp : AppendEntriesReply) : UpdateStepResult α :=
  if rf.status ≠ STATUS_LEADER then
    { state := rf, emitted := [], done := true }
  else if resp.success then
    updatePeerSuccess rf peer cmd resp
  else
    { state := { rf with
        nextIndex := rf.nextIndex.set resp.peerIndex.toNat
          ((rf.nextIndex.getD resp.peerIndex.toNat 0) - 1) },
      emitted := [], done := false }

/-- One iteration of the response handling in updatePeer, for a delivered RPC
reply (ok = true): first the becomeFollowerIfTermIsOlder step-down on the
reply term, then the response handling. -/
def updatePeerStep {α : Type} [Inhabited α] (rf0 : Raft α) (peer : Int)
    (cmd : PeerUpdateCmd) (resp : AppendEntriesReply) : UpdateStepResult α :=
  updatePeerBody (becomeFollowerIfTermIsOlder rf0 resp.term) peer cmd resp

/-! ## Concrete inputs used by witnesses, counterexamples and failing-input evaluations -/

/-- Follower state used to refute C1 as stated: one entry with term 5. -/
def rfC1 : Raft Nat :=
  { me := 0, numPeers := 3, currentTerm := 1, votedFor := -1,
    logEntries := [{ command := 0, term := 5, position := 0 }],
    commitIndex := -1, lastApplied := 0, status := STATUS_FOLLOWER,
    nextIndex := [], matchIndex := [], updatingPeers := [] }

/-- Arguments used to refute C1 as stated: PrevLogIndex 0 with PrevLogTerm 0,
which does not match the entry term 5 yet is accepted. -/
def argsC1 : AppendEntriesArgs Nat :=
  { term := 1, leaderId := 1, prevLogIndex := 0, prevLogTerm := 0,
    logEntries := [], leaderCommitIndex := -1 }

/-- Follower holding one stale entry, used to exhibit the missing truncation
when PrevLogIndex is -1. -/
def rfC2 : Raft Nat :=
  { me := 2, numPeers := 3, currentTerm := 1, votedFor := -1,
    logEntries := [{ command := 10, term := 1, position := 0 }],
    commitIndex := -1, lastApplied := 0, status := STATUS_FOLLOWER,
    nextIndex := [], matchIndex := [], updatingPeers := [] }

/-- AppendEntries from a higher-term leader replicating its whole log from
scratch: PrevLogIndex -1 with one entry. -/
def argsC2 : AppendEntriesArgs Nat :=
  { term := 2, leaderId := 1, prevLogIndex := -1, prevLogTerm := 0,
    logEntries := [{ command := 20, term := 2, position := 0 }],
    leaderCommitIndex := -1 }

/-- Follower with two entries, both committed and applied. -/
def rfC8 : Raft Nat :=
  { me := 2, numPeers := 3, currentTerm := 1, votedFor := -1,
    logEntries := [{ command := 10, term := 1, position := 0 },
                   { command := 11, term := 1, position := 1 }],
    commitIndex := 1, lastApplied := 1, status := STATUS_FOLLOWER,
    nextIndex := [], matchIndex := [], updatingPeers := [] }

/-- Accepted AppendEntries that truncates the log to one entry while carrying
a LeaderCommitIndex above the follower's commitIndex. -/
def argsC8 : AppendEntriesArgs Nat :=
  { term := 1, leaderId := 0, prevLogIndex := 0, prevLogTerm := 1,
    logEntries := [], leaderCommitIndex := 5 }

/-- Follower that granted its vote to peer 1 in the current term, used to
witness C10. -/
def rfC10 : Raft Nat :=
  { me := 0, numPeers := 3, currentTerm := 4, votedFor := 1,
    logEntries := [], commitIndex := -1, lastApplied := -1,
    status := STATUS_FOLLOWER, nextIndex := [], matchIndex := [],
    updatingPeers := [] }

/-- Heartbeat carrying the same term 4. -/
def argsC10 : AppendEntriesArgs Nat :=
  { term := 4, leaderId := 2, prevLogIndex := -1, prevLogTerm := -1,
    logEntries := [], leaderCommitIndex := -1 }

/-- Peer with an empty log that has not voted yet, used to witness C4. -/
def rfC4 : Raft Nat :=
  { me := 0, numPeers := 3, currentTerm := 1, votedFor := -1,
    logEntries := [], commitIndex := -1, lastApplied := -1,
    status := STATUS_FOLLOWER, nextIndex := [], matchIndex := [],
    updatingPeers := [] }

/-- Vote request from candidate 2 with an empty log. -/
def argsC4 : RequestVoteArgs :=
  { term := 2, candidateId := 2, lastLogIndex := -1, lastLogTerm := 0 }

/-- Leader state used to witness C5. -/
def rfC5 : Raft Nat :=
  { me := 1, numPeers := 3, currentTerm := 4, votedFor := -1,
    logEntries := [{ command := 9, term := 3, position := 0 }],
    commitIndex := 0, lastApplied := 0, status := STATUS_LEADER,
    nextIndex := [0, 0, 0], matchIndex := [-1, 0, -1],
    updatingPeers := [false, false, false] }

/-- Follower with three uncommitted entries used to witness C3. -/
def rfC3 : Raft Nat :=
  { me := 2, numPeers := 3, currentTerm := 1, votedFor := -1,
    logEntries := [{ command := 10, term := 1, position := 0 },
                   { command := 11, term := 1, position := 1 },
                   { command := 12, term := 1, position := 2 }],
    commitIndex := -1, lastApplied := 2, status := STATUS_FOLLOWER,
    nextIndex := [], matchIndex := [], updatingPeers := [] }

/-- Heartbeat-shaped AppendEntries advertising LeaderCommitIndex 1. -/
def argsC3 : AppendEntriesArgs Nat :=
  { term := 1, leaderId := 0, prevLogIndex := 2, prevLogTerm := 1,
    logEntries := [], leaderCommitIndex := 1 }

/-- Leader state with a freshly appended entry at index 1, used to witness
C6: follower 2 confirms replication up to index 1 and the entry commits. -/
def rfC6 : Raft Nat :=
  { me := 1, numPeers := 3, currentTerm := 4, votedFor := -1,
    logEntries := [{ command := 9, term := 3, position := 0 },
                   { command := 42, term := 4, position := 1 }],
    commitIndex := 0, lastApplied := 1, status := STATUS_LEADER,
    nextIndex := [0, 1, 0], matchIndex := [-1, 1, -1],
    updatingPeers := [false, false, true] }

/-- Success reply from peer 2 reporting NextIndex 1. -/
def respC6 : AppendEntriesReply :=
  { term := 4, success := true, peerIndex := 2, nextIndex := 1 }

/-- Replication command targeting entry 1 in term 4. -/
def cmdC6 : PeerUpdateCmd := { entry := 1, term := 4 }

/-- Follower that granted its vote to peer 3, used to refute C9 as stated:
the repeated heartbeat matches its log at index 0 and carries its current
term, yet votedFor changes. -/
def rfC9 : Raft Nat :=
  { me := 2, numPeers := 3, currentTerm := 2, votedFor := 3,
    logEntries := [{ command := 7, term := 1, position := 0 }],
    commitIndex := -1, lastApplied := 0, status := STATUS_FOLLOWER,
    nextIndex := [], matchIndex := [], updatingPeers := [] }

/-- Heartbeat with the follower's current term, matching PrevLogIndex 0 and
PrevLogTerm, empty entries, LeaderCommitIndex not above commitIndex. -/
def argsC9 : AppendEntriesArgs Nat :=
  { term := 2, leaderId := 1, prevLogIndex := 0, prevLogTerm := 1,
    logEntries := [], leaderCommitIndex := -1 }

/-- Follower in the amended C9 configuration: no vote granted, one entry,
lastApplied at the matching index. -/
def rfC9w : Raft Nat :=
  { me := 2, numPeers := 3, currentTerm := 2, votedFor := -1,
    logEntries := [{ command := 7, term := 1, position := 0 }],
    commitIndex := -1, lastApplied := 0, status := STATUS_FOLLOWER,
    nextIndex := [], matchIndex := [], updatingPeers := [] }

/-- The same repeated heartbeat as in the counterexample. -/
def argsC9w : AppendEntriesArgs Nat :=
  { term := 2, leaderId := 1, prevLogIndex := 0, prevLogTerm := 1,
    logEntries := [], leaderCommitIndex := -1 }

/-! ## Helper lemmas -/

theorem stepDownOrEqual_eq {α : Type} (rf : Raft α) (t : Int)
    (h : rf.currentTerm ≤ t) :
    becomeFollowerIfTermIsOlderOrEqual rf t = becomeFollower rf t := if_pos h

theorem stepDownStrict_eq_self {α : Type} (rf : Raft α) (t : Int)
    (h : t ≤ rf.currentTerm) :
    becomeFollowerIfTermIsOlder rf t = rf := if_neg (not_lt.mpr h)

theorem acceptEntries_reply_success {α : Type} [Inhabited α] (rf : Raft α)
    (args : AppendEntriesArgs α) :
    (acceptEntries rf args).reply.success = true := rfl

theorem acceptEntries_timerReset {α : Type} [Inhabited α] (rf : Raft α)
    (args : AppendEntriesArgs α) :
    (acceptEntries rf args).timerReset = true := rfl

theorem acceptEntries_state_def {α : Type} [Inhabited α] (rf : Raft α)
    (args : AppendEntriesArgs α) :
    (acceptEntries rf args).state =
      (commitStep (appendStep (truncateStep rf args).1 args
        (truncateStep rf args).2).1 args.leaderCommitIndex).1 := rfl

theorem acceptEntries_emitted_def {α : Type} [Inhabited α] (rf : Raft α)
    (args : AppendEntriesArgs α) :
    (acceptEntries rf args).emitted =
      (commitStep (appendStep (truncateStep rf args).1 args
        (truncateStep rf args).2).1 args.leaderCommitIndex).2 := rfl

theorem truncateStep_currentTerm {α : Type} (rf : Raft α)
    (args : AppendEntriesArgs α) :
    (truncateStep rf args).1.currentTerm = rf.currentTerm := by
  unfold truncateStep
  split <;> rfl

theorem truncateStep_votedFor {α : Type} (rf : Raft α)
    (args : AppendEntriesArgs α) :
    (truncateStep rf args).1.votedFor = rf.votedFor := by
  unfold truncateStep
  split <;> rfl

theorem truncateStep_commitIndex {α : Type} (rf : Raft α)
    (args : AppendEntriesArgs α) :
    (truncateStep rf args).1.commitIndex = rf.commitIndex := by
  unfold truncateStep
  split <;> rfl

theorem appendStep_currentTerm {α : Type} (rf : Raft α)
    (args : AppendEntriesArgs α) (ni : Int) :
    (appendStep rf args ni).1.currentTerm = rf.currentTerm := by
  unfold appendStep
  split <;> rfl

theorem appendStep_votedFor {α : Type} (rf : Raft α)
    (args : AppendEntriesArgs α) (ni : Int) :
    (appendStep rf args ni).1.votedFor = rf.votedFor := by
  unfold appendStep
  split <;> rfl

theorem appendStep_commitIndex {α : Type} (rf : Raft α)
    (args : AppendEntriesArgs α) (ni : Int) :
    (appendStep rf args ni).1.commitIndex = rf.commitIndex := by
  unfold appendStep
  split <;> rfl

theorem commitStep_currentTerm {α : Type} [Inhabited α] (rf : Raft α)
    (lc : Int) :
    (commitStep rf lc).1.currentTerm = rf.currentTerm := by
  unfold commitStep
  split <;> rfl

theorem commitStep_votedFor {α : Type} [Inhabited α] (rf : Raft α) (lc : Int) :
    (commitStep rf lc).1.votedFor = rf.votedFor := by
  unfold commitStep
  split <;> rfl

theorem commitStep_logEntries {α : Type} [Inhabited α] (rf : Raft α)
    (lc : Int) :
    (commitStep rf lc).1.logEntries = rf.logEntries := by
  unfold commitStep
  split <;> rfl

theorem commitStep_of_lt {α : Type} [Inhabited α] (rf : Raft α) (lc : Int)
    (h : rf.commitIndex < lc) :
    commitStep rf lc =
      ({ rf with commitIndex := min lc ((rf.logEntries.length : Int) - 1) },
        commitMsgs rf.logEntries (rf.commitIndex + 1)
          (min lc ((rf.logEntries.length : Int) - 1))) := by
  unfold commitStep
  rw [if_pos h]

theorem commitStep_of_not_lt {α : Type} [Inhabited α] (rf : Raft α) (lc : Int)
    (h : ¬ rf.commitIndex < lc) :
    commitStep rf lc = (rf, []) := by
  unfold commitStep
  rw [if_neg h]

theorem filterMap_eq_map_of_some {β γ : Type} (l : List β) (f : β → Option γ)
    (g : β → γ) (h : ∀ x ∈ l, f x = some (g x)) :
    l.filterMap f = l.map g := by
  induction l with
  | nil => rfl
  | cons a t ih =>
    rw [List.filterMap_cons, h a (List.mem_cons_self a t), List.map_cons,
      ih (fun x hx => h x (List.mem_cons_of_mem a hx))]

theorem commitMsgs_eq_map {α : Type} [Inhabited α] (l : List (Log α))
    (lo hi : Int) (h : 0 ≤ lo) :
    commitMsgs l lo hi = (List.range ((hi + 1) - lo).toNat).map (fun j =>
      { index := (lo + (j : Int)) + 1, command := commandAt l (lo + (j : Int)) }) := by
  unfold commitMsgs
  refine filterMap_eq_map_of_some _ _ _ (fun j _ => ?_)
  have hj : (0 : Int) ≤ lo + (j : Int) := by omega
  rw [if_pos hj]

/-- The consistency-check characterization of the handler body: on a term
that is not old, the reply is Success exactly when PrevLogIndex is inside the
log and either it is negative, or PrevLogTerm is not positive, or PrevLogTerm
matches the entry term at PrevLogIndex. -/
theorem appendEntriesBody_success_iff {α : Type} [Inhabited α] (rf : Raft α)
    (args : AppendEntriesArgs α) (h : ¬ args.term < rf.currentTerm) :
    (appendEntriesBody rf args).reply.success = true ↔
      (args.prevLogIndex < (rf.logEntries.length : Int) ∧
        (args.prevLogIndex < 0 ∨ args.prevLogTerm ≤ 0 ∨
          args.prevLogTerm = termAt rf.logEntries args.prevLogIndex)) := by
  unfold appendEntriesBody
  rw [if_neg h]
  by_cases h2 : (rf.logEntries.length : Int) ≤ args.prevLogIndex
  · rw [if_pos h2]
    exact iff_of_false Bool.false_ne_true
      (fun hc => absurd hc.1 (not_lt.mpr h2))
  · rw [if_neg h2]
    by_cases h3 : 0 < args.prevLogTerm ∧ -1 < args.prevLogIndex ∧
        args.prevLogTerm ≠ termAt rf.logEntries args.prevLogIndex
    · rw [if_pos h3]
      refine iff_of_false Bool.false_ne_true ?_
      rintro ⟨-, hd | hd | hd⟩
      · omega
      · omega
      · exact h3.2.2 hd
    · rw [if_neg h3]
      refine iff_of_true (acceptEntries_reply_success rf args) ⟨by omega, ?_⟩
      push_neg at h3
      by_cases hp : 0 < args.prevLogTerm
      · by_cases hq : -1 < args.prevLogIndex
        · exact Or.inr (Or.inr (h3 hp hq))
        · exact Or.inl (by omega)
      · exact Or.inr (Or.inl (by omega))

/-! ## Claim C1 -/

/-- C1, amended: for every AppendEntries call with args.Term at least
currentTerm at entry, the handler replies Success = true if and only if
args.PrevLogIndex < length(log) AND (args.PrevLogIndex < 0 OR
args.PrevLogTerm <= 0 OR args.PrevLogTerm equals log[args.PrevLogIndex].Term).
The extra args.PrevLogTerm <= 0 escape comes from the source guard
args.PrevLogTerm > 0 on the term-match test. -/
theorem C1_appendEntries_success_iff {α : Type} [Inhabited α] (rf0 : Raft α)
    (args : AppendEntriesArgs α) (h : rf0.currentTerm ≤ args.term) :
    (AppendEntries rf0 args).reply.success = true ↔
      (args.prevLogIndex < (rf0.logEntries.length : Int) ∧
        (args.prevLogIndex < 0 ∨ args.prevLogTerm ≤ 0 ∨
          args.prevLogTerm = termAt rf0.logEntries args.prevLogIndex)) := by
  unfold AppendEntries
  rw [stepDownOrEqual_eq rf0 args.term h]
  exact appendEntriesBody_success_iff (becomeFollower rf0 args.term) args
    (lt_irrefl args.term)

/-- C1 counterexample: args.Term >= currentTerm and the handler replies
Success = true although args.PrevLogIndex >= 0 and args.PrevLogTerm differs
from log[args.PrevLogIndex].Term, so the biconditional claimed by C1 fails at
this input. -/
theorem C1_counterexample :
    rfC1.currentTerm ≤ argsC1.term ∧
    (AppendEntries rfC1 argsC1).reply.success = true ∧
    ¬ (argsC1.prevLogIndex < 0 ∨
        argsC1.prevLogTerm = termAt rfC1.logEntries argsC1.prevLogIndex) := by
  decide

/-- C1 witness: the amended biconditional applied at a concrete input. -/
theorem C1_witness :
    rfC1.currentTerm ≤ argsC1.term ∧
    ((AppendEntries rfC1 argsC1).reply.success = true ↔
      (argsC1.prevLogIndex < (rfC1.logEntries.length : Int) ∧
        (argsC1.prevLogIndex < 0 ∨ argsC1.prevLogTerm ≤ 0 ∨
          argsC1.prevLogTerm = termAt rfC1.logEntries argsC1.prevLogIndex))) :=
  ⟨by decide, C1_appendEntries_success_iff rfC1 argsC1 (by decide)⟩

/-! ## Claim C2 -/

/-- C2 failing input evaluated: the call is accepted, but the post-state log
keeps the stale entry in front of the leader's entries instead of being the
truncated-to-empty log followed by args.LogEntries, because the source only
truncates when args.PrevLogIndex > -1.  The reply NextIndex is the new last
index 1, so the leader never learns the logs differ at position 0. -/
theorem C2_missing_truncation :
    (AppendEntries rfC2 argsC2).reply.success = true ∧
    (AppendEntries rfC2 argsC2).state.logEntries =
      [{ command := 10, term := 1, position := 0 },
       { command := 20, term := 2, position := 0 }] ∧
    (AppendEntries rfC2 argsC2).state.logEntries ≠ argsC2.logEntries ∧
    (AppendEntries rfC2 argsC2).reply.nextIndex = 1 := by
  decide

/-! ## Claim C8 -/

/-- C8 failing input evaluated: the call is accepted and both commitIndex and
lastApplied move backwards from 1 to 0, contradicting the claimed (and
source-commented) monotonicity of the two indices. -/
theorem C8_indices_decrease :
    (AppendEntries rfC8 argsC8).reply.success = true ∧
    (AppendEntries rfC8 argsC8).state.commitIndex = 0 ∧
    (AppendEntries rfC8 argsC8).state.lastApplied = 0 ∧
    (AppendEntries rfC8 argsC8).state.commitIndex < rfC8.commitIndex ∧
    (AppendEntries rfC8 argsC8).state.lastApplied < rfC8.lastApplied := by
  decide

/-! ## Claim C10 -/

theorem appendEntriesBody_state_votedFor {α : Type} [Inhabited α]
    (rf : Raft α) (args : AppendEntriesArgs α) :
    (appendEntriesBody rf args).state.votedFor = rf.votedFor := by
  unfold appendEntriesBody
  split_ifs
  · rfl
  · rfl
  · rfl
  · rw [acceptEntries_state_def, commitStep_votedFor, appendStep_votedFor,
      truncateStep_votedFor]

/-- C10: every AppendEntries call whose term is at least currentTerm clears
votedFor to -1 through the unconditional reset inside becomeFollower, even
when the term is unchanged, so a vote already granted in the current term is
forgotten. -/
theorem C10_appendEntries_clears_votedFor {α : Type} [Inhabited α]
    (rf0 : Raft α) (args : AppendEntriesArgs α)
    (h : rf0.currentTerm ≤ args.term) :
    (AppendEntries rf0 args).state.votedFor = -1 := by
  unfold AppendEntries
  rw [stepDownOrEqual_eq rf0 args.term h,
    appendEntriesBody_state_votedFor (becomeFollower rf0 args.term) args]
  rfl

/-- C10 witness: an equal-term AppendEntries erases a granted vote. -/
theorem C10_witness :
    rfC10.currentTerm ≤ argsC10.term ∧
    (AppendEntries rfC10 argsC10).state.votedFor = -1 :=
  ⟨by decide, C10_appendEntries_clears_votedFor rfC10 argsC10 (by decide)⟩

/-! ## Claim C7 -/

theorem stepDownStrict_term_le {α : Type} (rf : Raft α) (t : Int) :
    rf.currentTerm ≤ (becomeFollowerIfTermIsOlder rf t).currentTerm := by
  unfold becomeFollowerIfTermIsOlder
  split
  · exact le_of_lt (by assumption)
  · exact le_refl _

theorem stepDownOrEqual_term_le {α : Type} (rf : Raft α) (t : Int) :
    rf.currentTerm ≤ (becomeFollowerIfTermIsOlderOrEqual rf t).currentTerm := by
  unfold becomeFollowerIfTermIsOlderOrEqual
  split
  · exact le_trans (by assumption) (le_refl _)
  · exact le_refl _

theorem appendEntriesBody_state_currentTerm {α : Type} [Inhabited α]
    (rf : Raft α) (args : AppendEntriesArgs α) :
    (appendEntriesBody rf args).state.currentTerm = rf.currentTerm := by
  unfold appendEntriesBody
  split_ifs
  · rfl
  · rfl
  · rfl
  · rw [acceptEntries_state_def, commitStep_currentTerm, appendStep_currentTerm,
      truncateStep_currentTerm]

theorem requestVoteBody_state_currentTerm {α : Type} (rf : Raft α)
    (args : RequestVoteArgs) :
    (requestVoteBody rf args).state.currentTerm = rf.currentTerm := by
  unfold requestVoteBody
  split <;> rfl

theorem Start_state_currentTerm {α : Type} (rf : Raft α) (c : α) :
    (Start rf c).state.currentTerm = rf.currentTerm := by
  unfold Start
  split <;> rfl

/-- C7: currentTerm never decreases across the state-mutating operations: the
AppendEntries handler, the RequestVote handler, BecomeCandidate, BecomeLeader,
both becomeFollower guard variants, and Start. -/
theorem C7_currentTerm_monotonic {α : Type} [Inhabited α] (rf : Raft α)
    (aeArgs : AppendEntriesArgs α) (rvArgs : RequestVoteArgs) (t : Int)
    (c : α) :
    rf.currentTerm ≤ (AppendEntries rf aeArgs).state.currentTerm ∧
    rf.currentTerm ≤ (RequestVote rf rvArgs).state.currentTerm ∧
    rf.currentTerm ≤ (BecomeCandidate rf).currentTerm ∧
    rf.currentTerm ≤ (BecomeLeader rf).currentTerm ∧
    rf.currentTerm ≤ (becomeFollowerIfTermIsOlder rf t).currentTerm ∧
    rf.currentTerm ≤ (becomeFollowerIfTermIsOlderOrEqual rf t).currentTerm ∧
    rf.currentTerm ≤ (Start rf c).state.currentTerm := by
  refine ⟨?_, ?_, ?_, ?_, stepDownStrict_term_le rf t,
    stepDownOrEqual_term_le rf t, ?_⟩
  · unfold AppendEntries
    rw [appendEntriesBody_state_currentTerm]
    exact stepDownOrEqual_term_le rf aeArgs.term
  · unfold RequestVote
    rw [requestVoteBody_state_currentTerm]
    exact stepDownStrict_term_le rf rvArgs.term
  · exact le_of_lt (lt_add_one _)
  · exact le_refl _
  · rw [Start_state_currentTerm]

/-! ## Claim C4 -/

theorem stepDownStrict_logEntries {α : Type} (rf : Raft α) (t : Int) :
    (becomeFollowerIfTermIsOlder rf t).logEntries = rf.logEntries := by
  unfold becomeFollowerIfTermIsOlder
  split <;> rfl

theorem voteGrantedCheck_iff {α : Type} (rf : Raft α) (args : RequestVoteArgs) :
    voteGrantedCheck rf args = true ↔
      (rf.votedFor = -1 ∧ (selfLastLogTermOf rf < args.lastLogTerm ∨
        (selfLastLogTermOf rf = args.lastLogTerm ∧
          (rf.logEntries.length : Int) ≤ args.lastLogIndex + 1))) := by
  unfold voteGrantedCheck
  split_ifs with h1 h2 h3
  · simp only [true_iff]
    exact ⟨h1, Or.inl h2⟩
  · simp only [decide_eq_true_eq]
    constructor
    · exact fun hle => ⟨h1, Or.inr ⟨h3, hle⟩⟩
    · rintro ⟨-, hle | ⟨-, hle⟩⟩
      · exact absurd hle h2
      · exact hle
  · refine iff_of_false not_false ?_
    rintro ⟨-, hle | ⟨heq, -⟩⟩
    · exact h2 hle
    · exact h3 heq
  · refine iff_of_false not_false ?_
    rintro ⟨hv, -⟩
    exact h1 hv

/-- C4: for every RequestVote call, after the higher-term step-down, the vote
is granted exactly when votedFor is NONE and the candidate's log is at least
as up to date (last log term strictly greater, or equal last log term with
LastLogIndex + 1 at least the length of the peer's log); and on a grant the
handler records the candidate in votedFor and resets the election timer. -/
theorem C4_requestVote_grant {α : Type} (rf0 : Raft α)
    (args : RequestVoteArgs) :
    ((RequestVote rf0 args).reply.voteGranted = true ↔
      ((becomeFollowerIfTermIsOlder rf0 args.term).votedFor = -1 ∧
        (selfLastLogTermOf rf0 < args.lastLogTerm ∨
          (selfLastLogTermOf rf0 = args.lastLogTerm ∧
            (rf0.logEntries.length : Int) ≤ args.lastLogIndex + 1)))) ∧
    ((RequestVote rf0 args).reply.voteGranted = true →
      (RequestVote rf0 args).state.votedFor = args.candidateId ∧
      (RequestVote rf0 args).timerReset = true) := by
  have hlog : (becomeFollowerIfTermIsOlder rf0 args.term).logEntries =
      rf0.logEntries := stepDownStrict_logEntries rf0 args.term
  have hself : selfLastLogTermOf (becomeFollowerIfTermIsOlder rf0 args.term) =
      selfLastLogTermOf rf0 := by
    unfold selfLastLogTermOf
    rw [hlog]
  have hiff := voteGrantedCheck_iff (becomeFollowerIfTermIsOlder rf0 args.term)
    args
  rw [hself, hlog] at hiff
  by_cases hg : voteGrantedCheck (becomeFollowerIfTermIsOlder rf0 args.term)
      args = true
  · have hgr : (RequestVote rf0 args).reply.voteGranted = true := by
      unfold RequestVote requestVoteBody
      rw [if_pos hg]
    have hst : (RequestVote rf0 args).state.votedFor = args.candidateId := by
      unfold RequestVote requestVoteBody
      rw [if_pos hg]
    have htr : (RequestVote rf0 args).timerReset = true := by
      unfold RequestVote requestVoteBody
      rw [if_pos hg]
    exact ⟨iff_of_true hgr (hiff.mp hg), fun _ => ⟨hst, htr⟩⟩
  · have hgr : (RequestVote rf0 args).reply.voteGranted = false := by
      unfold RequestVote requestVoteBody
      rw [if_neg hg]
    rw [hgr]
    refine ⟨iff_of_false Bool.false_ne_true (fun hc => hg (hiff.mpr hc)), ?_⟩
    exact fun hc => absurd hc Bool.false_ne_true

/-- C4 witness: the grant biconditional and grant effects at a concrete
input. -/
theorem C4_witness :
    ((RequestVote rfC4 argsC4).reply.voteGranted = true ↔
      ((becomeFollowerIfTermIsOlder rfC4 argsC4.term).votedFor = -1 ∧
        (selfLastLogTermOf rfC4 < argsC4.lastLogTerm ∨
          (selfLastLogTermOf rfC4 = argsC4.lastLogTerm ∧
            (rfC4.logEntries.length : Int) ≤ argsC4.lastLogIndex + 1)))) ∧
    ((RequestVote rfC4 argsC4).reply.voteGranted = true →
      (RequestVote rfC4 argsC4).state.votedFor = argsC4.candidateId ∧
      (RequestVote rfC4 argsC4).timerReset = true) :=
  C4_requestVote_grant rfC4 argsC4

/-! ## Claim C5 -/

/-- C5: Start on a non-leader returns (-1, -1, false) and leaves the state
unchanged; on a leader it appends one entry holding the command and the
current term at position length(log) (that is, lastLogIndex + 1), enqueues a
replication command targeting that entry for every other peer, and returns
the new 1-based length, the current term, and true. -/
theorem C5_Start_spec {α : Type} (rf : Raft α) (command : α) :
    (rf.status ≠ STATUS_LEADER →
      Start rf command =
        { state := rf, updates := [], index := -1, term := -1,
          isLeader := false }) ∧
    (rf.status = STATUS_LEADER →
      (Start rf command).state.logEntries = rf.logEntries ++
        [{ command := command, term := rf.currentTerm,
           position := (rf.logEntries.length : Int) }] ∧
      (Start rf command).index = (rf.logEntries.length : Int) + 1 ∧
      (Start rf command).term = rf.currentTerm ∧
      (Start rf command).isLeader = true ∧
      (Start rf command).updates =
        (List.range rf.numPeers).filterMap (fun (i : Nat) =>
          if (i : Int) = rf.me then none
          else some ((i : Int),
            ({ entry := (rf.logEntries.length : Int),
               term := rf.currentTerm } : PeerUpdateCmd)))) := by
  constructor
  · intro h
    unfold Start
    rw [if_pos h]
  · intro h
    unfold Start
    rw [if_neg (not_not_intro h)]
    refine ⟨rfl, ?_, rfl, rfl, ?_⟩
    · show ((rf.logEntries ++ [_]).length : Int) = (rf.logEntries.length : Int) + 1
      simp
    · show enqueueEntryBroadcast _ _ = _
      unfold enqueueEntryBroadcast
      rw [if_neg (not_not_intro h)]
      simp

/-- C5 witness: the leader branch of the Start contract at a concrete
input. -/
theorem C5_witness :
    (Start rfC5 (42 : Nat)).state.logEntries = rfC5.logEntries ++
      [{ command := 42, term := rfC5.currentTerm,
         position := (rfC5.logEntries.length : Int) }] ∧
    (Start rfC5 (42 : Nat)).index = (rfC5.logEntries.length : Int) + 1 ∧
    (Start rfC5 (42 : Nat)).term = rfC5.currentTerm ∧
    (Start rfC5 (42 : Nat)).isLeader = true ∧
    (Start rfC5 (42 : Nat)).updates =
      (List.range rfC5.numPeers).filterMap (fun (i : Nat) =>
        if (i : Int) = rfC5.me then none
        else some ((i : Int),
          ({ entry := (rfC5.logEntries.length : Int),
             term := rfC5.currentTerm } : PeerUpdateCmd))) :=
  (C5_Start_spec rfC5 42).2 (by decide)

/-! ## Claim C3 -/

theorem stepDownOrEqual_commitIndex {α : Type} (rf : Raft α) (t : Int) :
    (becomeFollowerIfTermIsOlderOrEqual rf t).commitIndex = rf.commitIndex := by
  unfold becomeFollowerIfTermIsOlderOrEqual
  split <;> rfl

/-- Commit behaviour of the handler body: on acceptance with a leader commit
index beyond commitIndex, commitIndex becomes the minimum of the leader commit
index and the last log index, and the emitted ApplyMsg records enumerate the
newly committed indices in increasing order with 1-based Index fields;
otherwise commitIndex is unchanged and nothing is emitted. -/
theorem appendEntriesBody_commit_spec {α : Type} [Inhabited α] (rf : Raft α)
    (args : AppendEntriesArgs α) (h : -1 ≤ rf.commitIndex) :
    ((appendEntriesBody rf args).reply.success = true →
      rf.commitIndex < args.leaderCommitIndex →
      (appendEntriesBody rf args).state.commitIndex =
        min args.leaderCommitIndex
          (((appendEntriesBody rf args).state.logEntries.length : Int) - 1) ∧
      (appendEntriesBody rf args).emitted =
        (List.range (((appendEntriesBody rf args).state.commitIndex + 1) -
            (rf.commitIndex + 1)).toNat).map (fun (j : Nat) =>
          { index := ((rf.commitIndex + 1) + (j : Int)) + 1,
            command := commandAt (appendEntriesBody rf args).state.logEntries
              ((rf.commitIndex + 1) + (j : Int)) })) ∧
    (((appendEntriesBody rf args).reply.success = false ∨
        args.leaderCommitIndex ≤ rf.commitIndex) →
      (appendEntriesBody rf args).state.commitIndex = rf.commitIndex ∧
      (appendEntriesBody rf args).emitted = []) := by
  unfold appendEntriesBody
  split_ifs with h1 h2 h3
  · exact ⟨fun hs => hs.elim, fun _ => ⟨rfl, rfl⟩⟩
  · exact ⟨fun hs => hs.elim, fun _ => ⟨rfl, rfl⟩⟩
  · exact ⟨fun hs => hs.elim, fun _ => ⟨rfl, rfl⟩⟩
  · have hci2 : (appendStep (truncateStep rf args).1 args
        (truncateStep rf args).2).1.commitIndex = rf.commitIndex := by
      rw [appendStep_commitIndex, truncateStep_commitIndex]
    by_cases hlt : rf.commitIndex < args.leaderCommitIndex
    · have hcs := commitStep_of_lt (appendStep (truncateStep rf args).1 args
        (truncateStep rf args).2).1 args.leaderCommitIndex
        (by rw [hci2]; exact hlt)
      constructor
      · intro _ _
        constructor
        · rw [acceptEntries_state_def, hcs]
        · rw [acceptEntries_emitted_def, acceptEntries_state_def, hcs, hci2]
          exact commitMsgs_eq_map _ _ _ (by omega)
      · rintro (hs | hle)
        · exact absurd (acceptEntries_reply_success rf args)
            (by rw [hs]; exact Bool.false_ne_true)
        · exact absurd hlt (not_lt.mpr hle)
    · have hcs := commitStep_of_not_lt (appendStep (truncateStep rf args).1 args
        (truncateStep rf args).2).1 args.leaderCommitIndex
        (by rw [hci2]; exact hlt)
      refine ⟨fun _ hlt2 => absurd hlt2 hlt, fun _ => ⟨?_, ?_⟩⟩
      · rw [acceptEntries_state_def, hcs, hci2]
      · rw [acceptEntries_emitted_def, hcs]

/-- C3: for every accepted AppendEntries with LeaderCommitIndex beyond the
pre-state commitIndex, the handler sets commitIndex to
min(LeaderCommitIndex, lastLogIndex) and emits, in increasing index order, an
ApplyMsg with Index i+1 and Command log[i].Command for each newly committed
index i; with Success false or LeaderCommitIndex at most commitIndex, the
commitIndex is unchanged and nothing is emitted.  The hypothesis
-1 <= commitIndex reflects the initialization in Make. -/
theorem C3_appendEntries_commit {α : Type} [Inhabited α] (rf0 : Raft α)
    (args : AppendEntriesArgs α) (h : -1 ≤ rf0.commitIndex) :
    ((AppendEntries rf0 args).reply.success = true →
      rf0.commitIndex < args.leaderCommitIndex →
      (AppendEntries rf0 args).state.commitIndex =
        min args.leaderCommitIndex
          (((AppendEntries rf0 args).state.logEntries.length : Int) - 1) ∧
      (AppendEntries rf0 args).emitted =
        (List.range (((AppendEntries rf0 args).state.commitIndex + 1) -
            (rf0.commitIndex + 1)).toNat).map (fun (j : Nat) =>
          { index := ((rf0.commitIndex + 1) + (j : Int)) + 1,
            command := commandAt (AppendEntries rf0 args).state.logEntries
              ((rf0.commitIndex + 1) + (j : Int)) })) ∧
    (((AppendEntries rf0 args).reply.success = false ∨
        args.leaderCommitIndex ≤ rf0.commitIndex) →
      (AppendEntries rf0 args).state.commitIndex = rf0.commitIndex ∧
      (AppendEntries rf0 args).emitted = []) := by
  have hpres : (becomeFollowerIfTermIsOlderOrEqual rf0 args.term).commitIndex =
      rf0.commitIndex := stepDownOrEqual_commitIndex rf0 args.term
  have hbody := appendEntriesBody_commit_spec
    (becomeFollowerIfTermIsOlderOrEqual rf0 args.term) args
    (by rw [hpres]; exact h)
  rw [hpres] at hbody
  exact hbody

/-- C3 witness: the commit-advance conclusion at a concrete accepted call. -/
theorem C3_witness :
    (AppendEntries rfC3 argsC3).state.commitIndex =
      min argsC3.leaderCommitIndex
        (((AppendEntries rfC3 argsC3).state.logEntries.length : Int) - 1) ∧
    (AppendEntries rfC3 argsC3).emitted =
      (List.range (((AppendEntries rfC3 argsC3).state.commitIndex + 1) -
          (rfC3.commitIndex + 1)).toNat).map (fun (j : Nat) =>
        { index := ((rfC3.commitIndex + 1) + (j : Int)) + 1,
          command := commandAt (AppendEntries rfC3 argsC3).state.logEntries
            ((rfC3.commitIndex + 1) + (j : Int)) }) :=
  (C3_appendEntries_commit rfC3 argsC3 (by decide)).1 (by decide) (by decide)

/-! ## Claim C6 -/

theorem successCountFor_markNotUpdating {α : Type} (rf : Raft α) (p : Int)
    (e : Int) :
    successCountFor (markNotUpdating rf p) e = successCountFor rf e := rfl

theorem getMajoritySize_markNotUpdating {α : Type} (rf : Raft α) (p : Int) :
    getMajoritySize (markNotUpdating rf p) = getMajoritySize rf := rfl

theorem getMajoritySize_setFollowerIndices {α : Type} (rf : Raft α)
    (p ni : Int) :
    getMajoritySize (setFollowerIndices rf p ni) = getMajoritySize rf := rfl

/-- C6: on a Success reply while still leader, updatePeer sets nextIndex and
matchIndex of the replying peer to the reply NextIndex; and when the reply
NextIndex has reached the target entry, the entry is committed (one ApplyMsg
with 1-based Index Entry+1 and the entry's command, commitIndex moved to
Entry) exactly when the count of peers whose updated matchIndex reaches the
entry is at least the majority and commitIndex equals Entry - 1; otherwise
commitIndex is unchanged and nothing is emitted. -/
theorem C6_updatePeer_success {α : Type} [Inhabited α] (rf0 : Raft α)
    (peer : Int) (cmd : PeerUpdateCmd) (resp : AppendEntriesReply)
    (h1 : rf0.status = STATUS_LEADER) (h2 : resp.term ≤ rf0.currentTerm)
    (h3 : resp.success = true) :
    (updatePeerStep rf0 peer cmd resp).state.nextIndex =
      rf0.nextIndex.set resp.peerIndex.toNat resp.nextIndex ∧
    (updatePeerStep rf0 peer cmd resp).state.matchIndex =
      rf0.matchIndex.set resp.peerIndex.toNat resp.nextIndex ∧
    (cmd.entry ≤ resp.nextIndex →
      (((updatePeerStep rf0 peer cmd resp).emitted ≠ [] ∧
          (updatePeerStep rf0 peer cmd resp).state.commitIndex = cmd.entry) ↔
        (getMajoritySize rf0 ≤
          successCountFor (setFollowerIndices rf0 resp.peerIndex resp.nextIndex)
            cmd.entry ∧
          rf0.commitIndex = cmd.entry - 1)) ∧
      ((updatePeerStep rf0 peer cmd resp).emitted ≠ [] →
        (updatePeerStep rf0 peer cmd resp).emitted =
          [{ index := cmd.entry + 1,
             command := commandAt rf0.logEntries cmd.entry }]) ∧
      ((updatePeerStep rf0 peer cmd resp).emitted = [] →
        (updatePeerStep rf0 peer cmd resp).state.commitIndex =
          rf0.commitIndex)) := by
  have hsd : becomeFollowerIfTermIsOlder rf0 resp.term = rf0 :=
    stepDownStrict_eq_self rf0 resp.term h2
  unfold updatePeerStep
  rw [hsd]
  unfold updatePeerBody
  rw [if_neg (not_not_intro h1), if_pos h3]
  unfold updatePeerSuccess
  by_cases h4 : cmd.entry ≤ resp.nextIndex
  · rw [if_pos h4]
    unfold updatePeerQuorum
    rw [getMajoritySize_markNotUpdating, getMajoritySize_setFollowerIndices,
      successCountFor_markNotUpdating]
    by_cases h5 : getMajoritySize rf0 ≤
        successCountFor (setFollowerIndices rf0 resp.peerIndex resp.nextIndex)
          cmd.entry
    · rw [if_pos h5]
      have hci : (markNotUpdating
          (setFollowerIndices rf0 resp.peerIndex resp.nextIndex)
          peer).commitIndex = rf0.commitIndex := rfl
      rw [hci]
      by_cases h6 : rf0.commitIndex = cmd.entry - 1
      · rw [if_pos h6]
        refine ⟨rfl, rfl, fun _ => ⟨?_, fun _ => rfl, fun he => ?_⟩⟩
        · exact iff_of_true ⟨List.cons_ne_nil _ _, rfl⟩ ⟨h5, h6⟩
        · exact absurd he (List.cons_ne_nil _ _)
      · rw [if_neg h6]
        refine ⟨rfl, rfl, fun _ => ⟨?_, fun hne => absurd rfl hne, fun _ => rfl⟩⟩
        exact iff_of_false (fun hc => hc.1 rfl) (fun hc => h6 hc.2)
    · rw [if_neg h5]
      refine ⟨rfl, rfl, fun _ => ⟨?_, fun hne => absurd rfl hne, fun _ => rfl⟩⟩
      exact iff_of_false (fun hc => hc.1 rfl) (fun hc => h5 hc.1)
  · rw [if_neg h4]
    exact ⟨rfl, rfl, fun hc => absurd hc h4⟩

/-- C6 witness: the reply handling contract at a concrete input on which the
entry commits. -/
theorem C6_witness :
    (updatePeerStep rfC6 2 cmdC6 respC6).state.nextIndex =
      rfC6.nextIndex.set respC6.peerIndex.toNat respC6.nextIndex ∧
    (updatePeerStep rfC6 2 cmdC6 respC6).state.matchIndex =
      rfC6.matchIndex.set respC6.peerIndex.toNat respC6.nextIndex ∧
    (cmdC6.entry ≤ respC6.nextIndex →
      (((updatePeerStep rfC6 2 cmdC6 respC6).emitted ≠ [] ∧
          (updatePeerStep rfC6 2 cmdC6 respC6).state.commitIndex = cmdC6.entry) ↔
        (getMajoritySize rfC6 ≤
          successCountFor (setFollowerIndices rfC6 respC6.peerIndex
            respC6.nextIndex) cmdC6.entry ∧
          rfC6.commitIndex = cmdC6.entry - 1)) ∧
      ((updatePeerStep rfC6 2 cmdC6 respC6).emitted ≠ [] →
        (updatePeerStep rfC6 2 cmdC6 respC6).emitted =
          [{ index := cmdC6.entry + 1,
             command := commandAt rfC6.logEntries cmdC6.entry }]) ∧
      ((updatePeerStep rfC6 2 cmdC6 respC6).emitted = [] →
        (updatePeerStep rfC6 2 cmdC6 respC6).state.commitIndex =
          rfC6.commitIndex)) :=
  C6_updatePeer_success rfC6 2 cmdC6 respC6 (by decide) (by decide) (by decide)

/-! ## Claim C9 -/

/-- C9 counterexample: all the hypotheses of C9 hold at this input (follower,
current-term heartbeat at k = 0 with matching PrevLogTerm, empty entries,
LeaderCommitIndex at most commitIndex, log matching at k), yet votedFor is
not unchanged: the handler resets it to -1, so the call is not a no-op. -/
theorem C9_counterexample :
    rfC9.status = STATUS_FOLLOWER ∧
    argsC9.term = rfC9.currentTerm ∧
    argsC9.logEntries = [] ∧
    argsC9.leaderCommitIndex ≤ rfC9.commitIndex ∧
    argsC9.prevLogIndex = 0 ∧
    (0 : Int) < (rfC9.logEntries.length : Int) ∧
    termAt rfC9.logEntries 0 = argsC9.prevLogTerm ∧
    (AppendEntries rfC9 argsC9).state.votedFor ≠ rfC9.votedFor := by
  decide

/-- C9, amended: the repeated AppendEntries is a no-op beyond resetting the
election timer provided additionally that the follower has not voted in the
current term (votedFor = NONE), its log holds exactly k+1 entries, and (for
k >= 0) its lastApplied equals k; the counterexample shows the votedFor
condition is necessary, and without the length and lastApplied conditions the
truncation to log[0..k] would drop entries beyond k and rewrite lastApplied. -/
theorem C9_heartbeat_noop {α : Type} [Inhabited α] (rf : Raft α)
    (args : AppendEntriesArgs α) (k : Int)
    (h1 : rf.status = STATUS_FOLLOWER) (h2 : rf.votedFor = -1)
    (h3 : args.term = rf.currentTerm) (h4 : args.prevLogIndex = k)
    (h5 : args.logEntries = []) (h6 : args.leaderCommitIndex ≤ rf.commitIndex)
    (h7 : (rf.logEntries.length : Int) = k + 1)
    (h8 : 0 ≤ k → termAt rf.logEntries k = args.prevLogTerm)
    (h9 : 0 ≤ k → rf.lastApplied = k) :
    (AppendEntries rf args).state = rf ∧
    (AppendEntries rf args).emitted = [] ∧
    (AppendEntries rf args).timerReset = true := by
  have hsd : becomeFollowerIfTermIsOlderOrEqual rf args.term = rf := by
    rw [h3]
    unfold becomeFollowerIfTermIsOlderOrEqual
    rw [if_pos (le_refl rf.currentTerm)]
    unfold becomeFollower
    rw [← h1, ← h2]
  unfold AppendEntries
  rw [hsd]
  unfold appendEntriesBody
  rw [if_neg (show ¬ args.term < rf.currentTerm by omega)]
  rw [if_neg (show ¬ (rf.logEntries.length : Int) ≤ args.prevLogIndex by omega)]
  have hcons : ¬ (0 < args.prevLogTerm ∧ -1 < args.prevLogIndex ∧
      args.prevLogTerm ≠ termAt rf.logEntries args.prevLogIndex) := by
    rintro ⟨-, hq, hne⟩
    rw [h4] at hne
    exact hne (h8 (by omega)).symm
  rw [if_neg hcons]
  have h_tr : (truncateStep rf args).1 = rf := by
    unfold truncateStep
    by_cases hlt : -1 < args.prevLogIndex
    · rw [if_pos hlt]
      have hk : 0 ≤ k := by omega
      have hk9 := h9 hk
      have hlen : rf.logEntries.length ≤ (args.prevLogIndex + 1).toNat := by
        omega
      show { rf with
        logEntries := rf.logEntries.take (args.prevLogIndex + 1).toNat,
        lastApplied :=
          (((rf.logEntries.take (args.prevLogIndex + 1).toNat).length : Int)) - 1 } = rf
      rw [List.take_of_length_le hlen]
      rw [show ((rf.logEntries.length : Int)) - 1 = rf.lastApplied by omega]
    · rw [if_neg hlt]
  have h_ap : ∀ x : Int, (appendStep rf args x).1 = rf := by
    intro x
    unfold appendStep
    rw [if_neg (show ¬ 0 < args.logEntries.length by rw [h5]; exact lt_irrefl 0)]
  have h_cs := commitStep_of_not_lt rf args.leaderCommitIndex (by omega)
  refine ⟨?_, ?_, acceptEntries_timerReset rf args⟩
  · rw [acceptEntries_state_def, h_tr, h_ap, h_cs]
  · rw [acceptEntries_emitted_def, h_tr, h_ap, h_cs]

/-- C9 witness: the amended no-op conclusion at a concrete input. -/
theorem C9_witness :
    (AppendEntries rfC9w argsC9w).state = rfC9w ∧
    (AppendEntries rfC9w argsC9w).emitted = [] ∧
    (AppendEntries rfC9w argsC9w).timerReset = true :=
  C9_heartbeat_noop rfC9w argsC9w 0 (by decide) (by decide) (by decide)
    (by decide) (by decide) (by decide) (by decide) (by decide) (by decide)

end RaftModel
